import Mathlib

/-!
Verification of the geometry core of `geom_visualisation` (`python/main.py`):
a hierarchical rigid-transform and mesh-synthesis engine for PET scanner
geometry. The Python source is shallowly embedded here: NumPy float matrices
become exact rational matrices (3×4 rigid transforms, 4×4 homogeneous
matrices as tuples), `trimesh` meshes become a symbolic `Trimesh` value
(vertex list, face-index list, optional RGBA color; a convex hull is kept
symbolically as its defining point set), `sys.exit` becomes `Except.error`,
and the narrowing cast `astype(np.uint8)` becomes truncation toward zero
followed by reduction modulo 2^8, which is what the C cast performed by
NumPy does on the values exercised here.
-/

/-! ## Basic linear algebra over ℚ: rows, 4×4 matrices, 3×4 transforms -/

/-- A 3D point, as NumPy row `[x, y, z]` of `float32`, modelled exactly in ℚ. -/
abbrev Point3 : Type := ℚ × ℚ × ℚ

/-- A homogeneous 4-row (or 4-vector). -/
abbrev Row4 : Type := ℚ × ℚ × ℚ × ℚ

/-- A 3×4 matrix: the `matrix` field of `petsird.RigidTransformation`. -/
abbrev Mat34 : Type := Row4 × Row4 × Row4

/-- A 4×4 homogeneous matrix. -/
abbrev Mat44 : Type := Row4 × Row4 × Row4 × Row4

/-- Dot product of two 4-vectors. -/
def dot4 (a b : Row4) : ℚ :=
  a.1 * b.1 + a.2.1 * b.2.1 + a.2.2.1 * b.2.2.1 + a.2.2.2 * b.2.2.2

/-- First column of a 4×4 matrix. -/
def col1 (m : Mat44) : Row4 := (m.1.1, m.2.1.1, m.2.2.1.1, m.2.2.2.1)

/-- Second column of a 4×4 matrix. -/
def col2 (m : Mat44) : Row4 := (m.1.2.1, m.2.1.2.1, m.2.2.1.2.1, m.2.2.2.2.1)

/-- Third column of a 4×4 matrix. -/
def col3 (m : Mat44) : Row4 := (m.1.2.2.1, m.2.1.2.2.1, m.2.2.1.2.2.1, m.2.2.2.2.2.1)

/-- Fourth column of a 4×4 matrix. -/
def col4 (m : Mat44) : Row4 := (m.1.2.2.2, m.2.1.2.2.2, m.2.2.1.2.2.2, m.2.2.2.2.2.2)

/-- A row times a 4×4 matrix. -/
def rowTimes (r : Row4) (m : Mat44) : Row4 :=
  (dot4 r (col1 m), dot4 r (col2 m), dot4 r (col3 m), dot4 r (col4 m))

/-- 4×4 matrix product, as `np.matmul` on `(4, 4)` arrays. -/
def matmul44 (a b : Mat44) : Mat44 :=
  (rowTimes a.1 b, rowTimes a.2.1 b, rowTimes a.2.2.1 b, rowTimes a.2.2.2 b)

/-- Matrix-vector product, as `np.matmul` of a `(4, 4)` array and a 4-vector. -/
def mulVec44 (m : Mat44) (v : Row4) : Row4 :=
  (dot4 m.1 v, dot4 m.2.1 v, dot4 m.2.2.1 v, dot4 m.2.2.2 v)

/-- The 4×4 identity matrix (the literal written out in `mult_transforms`). -/
def id44 : Mat44 := ((1, 0, 0, 0), (0, 1, 0, 0), (0, 0, 1, 0), (0, 0, 0, 1))

/-! ## petsird data types used by the geometry core -/

/-- `petsird.RigidTransformation`: a 3×4 rotation+translation matrix. -/
structure RigidTransformation where
  matrix : Mat34
deriving DecidableEq, Inhabited

/-- `petsird.Coordinate`: a 3-vector stored in field `c`. -/
structure Coordinate where
  c : Point3
deriving DecidableEq, Inhabited

/-- `petsird.BoxShape`: an ordered list of corner coordinates. -/
structure BoxShape where
  corners : List Coordinate
deriving DecidableEq, Inhabited

/-! ## Transform algebra (`transform_to_mat44` … `transform_BoxShape`) -/

/-- `transform_to_mat44`: `np.vstack([transform.matrix, [0, 0, 0, 1]])`. -/
def transform_to_mat44 (transform : RigidTransformation) : Mat44 :=
  (transform.matrix.1, transform.matrix.2.1, transform.matrix.2.2, (0, 0, 0, 1))

/-- `mat44_to_transform`: keep rows 0..2 of a 4×4 matrix (`mat[0:3, :]`). -/
def mat44_to_transform (mat : Mat44) : RigidTransformation :=
  ⟨(mat.1, mat.2.1, mat.2.2.1)⟩

/-- `coordinate_to_homogeneous`: `np.hstack([coord.c, 1])`. -/
def coordinate_to_homogeneous (coord : Coordinate) : Row4 :=
  (coord.c.1, coord.c.2.1, coord.c.2.2, 1)

/-- `homogeneous_to_coordinate`: keep components 0..2 (`hom_coord[0:3]`). -/
def homogeneous_to_coordinate (hom_coord : Row4) : Coordinate :=
  ⟨(hom_coord.1, hom_coord.2.1, hom_coord.2.2.1)⟩

/-- `mult_transforms`: start from the 4×4 identity and left-multiply by the
promoted matrices of the list in reversed order, then demote to 3×4. -/
def mult_transforms (transforms : List RigidTransformation) : RigidTransformation :=
  mat44_to_transform
    (transforms.reverse.foldl (fun mat t => matmul44 (transform_to_mat44 t) mat) id44)

/-- `mult_transforms_coord`: apply a list of transformations to a coordinate by
first fusing them with `mult_transforms`, then one homogeneous multiply. -/
def mult_transforms_coord (transforms : List RigidTransformation) (coord : Coordinate) :
    Coordinate :=
  homogeneous_to_coordinate
    (mulVec44 (transform_to_mat44 (mult_transforms transforms))
      (coordinate_to_homogeneous coord))

/-- `transform_BoxShape`: apply one transformation to every corner of a box. -/
def transform_BoxShape (transform : RigidTransformation) (box_shape : BoxShape) :
    BoxShape :=
  ⟨box_shape.corners.map (fun c => mult_transforms_coord [transform] c)⟩

/-- The identity rigid transformation (first three rows of the identity). -/
def idTransform : RigidTransformation :=
  ⟨((1, 0, 0, 0), (0, 1, 0, 0), (0, 0, 1, 0))⟩

/-! ## Meshes and colors (`trimesh` objects, `create_box_from_vertices`) -/

/-- An RGBA color; each channel is the value of a NumPy `uint8` (0..255). -/
structure Color where
  r : ℕ
  g : ℕ
  b : ℕ
  a : ℕ
deriving DecidableEq

/-- A `trimesh` mesh, kept symbolically: either a triangle mesh built from an
explicit vertex and face list (`trimesh.Trimesh(vertices=..., faces=...)`), or
a convex hull represented by the point set handed to
`trimesh.convex.convex_hull` (the hull computation itself is external to the
repository). `face_colors` models `mesh.visual.face_colors`. -/
inductive Trimesh where
  | mk (vertices : List Point3) (faces : List (List ℕ)) (face_colors : Option Color)
  | hull (points : List Point3) (face_colors : Option Color)
deriving DecidableEq

/-- The vertex list of a mesh (for a hull, its defining point set). -/
def Trimesh.vertices : Trimesh → List Point3
  | .mk v _ _ => v
  | .hull p _ => p

/-- The face-index list of a mesh (for a hull, externally computed: empty). -/
def Trimesh.faces : Trimesh → List (List ℕ)
  | .mk _ f _ => f
  | .hull _ _ => []

/-- The color of a mesh (`mesh.visual.face_colors`). -/
def Trimesh.face_colors : Trimesh → Option Color
  | .mk _ _ c => c
  | .hull _ c => c

/-- Assigning `mesh.visual.face_colors = c`. -/
def Trimesh.set_face_colors : Trimesh → Color → Trimesh
  | .mk v f _, c => .mk v f (some c)
  | .hull p _, c => .hull p (some c)

/-- The fixed corner-to-face index table of `create_box_from_vertices`:
two triangles for each of bottom, top, left, right, front, back. -/
def box_faces : List (List ℕ) :=
  [[1, 0, 2], [0, 2, 3],
   [4, 5, 6], [4, 6, 7],
   [0, 3, 7], [0, 7, 4],
   [1, 2, 6], [1, 6, 5],
   [0, 1, 5], [0, 5, 4],
   [3, 2, 6], [3, 6, 7]]

/-- `create_box_from_vertices`: build a `trimesh.Trimesh` from the given
vertices and the fixed face table, with no color assigned yet. -/
def create_box_from_vertices (vertices : List Point3) : Trimesh :=
  .mk vertices box_faces none

/-- `trimesh.convex.convex_hull(points)`: the hull solid of a point set,
kept symbolically by its defining points. -/
def convex_hull (points : List Point3) : Trimesh :=
  .hull points none

/-! ## Narrowing cast to `uint8` and the efficiency extractor -/

/-- Truncation toward zero of a rational, as the C cast from a floating-point
value to an integer type does. -/
def ratTrunc (x : ℚ) : ℤ := x.num.tdiv x.den

/-- The narrowing cast `astype(np.uint8)`: truncate toward zero, then reduce
modulo 2^8. This models what NumPy's C cast computes for the float values
reachable here; nothing is clamped and no error is raised. -/
def to_uint8 (x : ℚ) : ℕ := ((ratTrunc x) % 256).toNat

/-- `crystal_color = np.array([255, 40, 40], dtype=np.uint8)`, seen as exact
rationals for the later float arithmetic. -/
def crystal_color : Point3 := (255, 40, 40)

/-- `np.mean` of a 1-D array (one energy row). An empty row, which NumPy turns
into NaN, becomes `0/0 = 0` here; the development only evaluates nonempty
rows. -/
def np_mean (xs : List ℚ) : ℚ := xs.sum / xs.length

/-- `petsird` header fragment: the optional detection-efficiency table,
shape (element instances) × (energy bins). -/
structure DetectionEfficiencies where
  det_el_efficiencies : Option (List (List ℚ))
deriving DecidableEq

/-- The message passed to `sys.exit` when the efficiency table is missing. -/
def missing_eff_message : String :=
  "The scanner detection efficiencies is not defined. Correct this or remove the detector efficiency flag."

/-! ## Scanner geometry tree (petsird header fragment) -/

/-- A solid volume whose shape is a box (`rep_volume.object`). -/
structure BoxSolidVolume where
  shape : BoxShape
deriving DecidableEq, Inhabited

/-- A replicated detecting element (`rep_volume`): one template box shape and
its list of instance transforms. -/
structure ReplicatedBoxObject where
  object : BoxSolidVolume
  transforms : List RigidTransformation
deriving DecidableEq, Inhabited

/-- A detector module: its detecting-element groups (`rep_module.object`). -/
structure DetectorModule where
  detecting_elements : List ReplicatedBoxObject
deriving DecidableEq, Inhabited

/-- A replicated module (`rep_module`): one module template and its list of
placement transforms. -/
structure ReplicatedDetectorModule where
  object : DetectorModule
  transforms : List RigidTransformation
deriving DecidableEq, Inhabited

/-- `header.scanner.scanner_geometry`. -/
structure ScannerGeometry where
  replicated_modules : List ReplicatedDetectorModule
deriving DecidableEq

/-- `header.scanner`. -/
structure ScannerInformation where
  scanner_geometry : ScannerGeometry
  detection_efficiencies : DetectionEfficiencies
deriving DecidableEq

/-- The PETSIRD header (the part the geometry core reads). -/
structure Header where
  scanner : ScannerInformation
deriving DecidableEq

/-- `extract_detector_eff`: with a table present, use it when the flag is set
and otherwise replace it by `np.ones` of the same shape, then average over the
energy axis; with no table, the set flag is a fatal error (`sys.exit`,
modelled by `Except.error`) and the unset flag yields the `None` sentinel. -/
def extract_detector_eff (show_det_eff : Bool) (header : Header) :
    Except String (Option (List ℚ)) :=
  match header.scanner.detection_efficiencies.det_el_efficiencies with
  | some table =>
      let detector_efficiencies :=
        if show_det_eff then table else table.map (fun row => row.map (fun _ => (1 : ℚ)))
      .ok (some (detector_efficiencies.map np_mean))
  | none =>
      if show_det_eff then .error missing_eff_message
      else .ok none

/-! ## Color assignment (`set_detector_color`, `set_module_color`) -/

/-- Support of `np.random.randint(low, high)`: integers from `low` (inclusive)
to `high` (exclusive). Both color setters draw their random channels with
`np.random.randint(0, 255, size=3)`. -/
abbrev np_randint_support (low high x : ℕ) : Prop := low ≤ x ∧ x < high

/-- `set_detector_color`: random mode takes the three drawn channel values
(`rand`, produced externally by `np.random.randint(0, 255, size=3)`);
efficiency mode scales `crystal_color` by
`detector_efficiencies[mod_i * num_det_in_module + det_i]`; default mode keeps
`crystal_color`.  The resulting four channels `[c0, c1, c2, 50]` pass through
`astype(np.uint8)`. -/
def set_detector_color (det_mesh : Trimesh) (detector_efficiencies : Option (List ℚ))
    (mod_i num_det_in_module det_i : ℕ) (random_color : Bool) (rand : ℕ × ℕ × ℕ) :
    Trimesh :=
  let color : Point3 :=
    if random_color then ((rand.1 : ℚ), (rand.2.1 : ℚ), (rand.2.2 : ℚ))
    else
      match detector_efficiencies with
      | some eff =>
          let e := eff.getD (mod_i * num_det_in_module + det_i) 0
          (crystal_color.1 * e, crystal_color.2.1 * e, crystal_color.2.2 * e)
      | none => crystal_color
  det_mesh.set_face_colors ⟨to_uint8 color.1, to_uint8 color.2.1, to_uint8 color.2.2, 50⟩

/-- `set_module_color`: random mode as in `set_detector_color`; efficiency
mode scales `crystal_color` by the mean of the module's row of the efficiency
array reshaped to rows of length `len(det_el) * num_det_in_module`; default
mode keeps `crystal_color`. -/
def set_module_color (module_mesh : Trimesh) (detector_efficiencies : Option (List ℚ))
    (mod_i num_det_in_module : ℕ) (det_el : List ReplicatedBoxObject)
    (random_color : Bool) (rand : ℕ × ℕ × ℕ) : Trimesh :=
  let color : Point3 :=
    if random_color then ((rand.1 : ℚ), (rand.2.1 : ℚ), (rand.2.2 : ℚ))
    else
      match detector_efficiencies with
      | some eff =>
          let rowLen := det_el.length * num_det_in_module
          let m := np_mean ((eff.drop (mod_i * rowLen)).take rowLen)
          (crystal_color.1 * m, crystal_color.2.1 * m, crystal_color.2.2 * m)
      | none => crystal_color
  module_mesh.set_face_colors ⟨to_uint8 color.1, to_uint8 color.2.1, to_uint8 color.2.2, 50⟩

/-! ## The geometry traversal (`__main__` loop) -/

/-- State of the inner loops: the per-module corner buffer `vertices`, the
variable `num_det_in_module`, and the output list `shapes`. -/
abbrev TraversalState : Type := List (List Point3) × ℕ × List Trimesh

/-- Body of `for det_i in range(num_det_in_module)`: place the template box by
the fused module and element transform; in per-element mode synthesize and
color a box mesh and append it to `shapes` (the random channels for solid
number `k` are `rng k`), in per-module mode append the 8 corners to
`vertices`. -/
def det_instance_step (modules_only random_color : Bool) (det_eff : Option (List ℚ))
    (rng : ℕ → ℕ × ℕ × ℕ) (mod_i : ℕ) (mod_transform : RigidTransformation)
    (rep_volume : ReplicatedBoxObject) (st : TraversalState) (det_i : ℕ) :
    TraversalState :=
  let transform := rep_volume.transforms.getD det_i default
  let box := transform_BoxShape (mult_transforms [mod_transform, transform])
    rep_volume.object.shape
  let corners := box.corners.map (fun boxcorner => boxcorner.c)
  if modules_only then (st.1 ++ [corners], st.2.1, st.2.2)
  else
    let det_mesh := create_box_from_vertices corners
    let det_mesh := set_detector_color det_mesh det_eff mod_i st.2.1 det_i random_color
      (rng st.2.2.length)
    (st.1, st.2.1, st.2.2 ++ [det_mesh])

/-- Body of `for rep_volume in det_el`: set `num_det_in_module` to the group's
instance count, then run the instance loop. -/
def det_group_step (modules_only random_color : Bool) (det_eff : Option (List ℚ))
    (rng : ℕ → ℕ × ℕ × ℕ) (mod_i : ℕ) (mod_transform : RigidTransformation)
    (st : TraversalState) (rep_volume : ReplicatedBoxObject) : TraversalState :=
  let num_det_in_module := rep_volume.transforms.length
  (List.range num_det_in_module).foldl
    (det_instance_step modules_only random_color det_eff rng mod_i mod_transform rep_volume)
    (st.1, num_det_in_module, st.2.2)

/-- Body of `for mod_i in range(len(rep_module.transforms))`: reset the corner
buffer, run the group loop, and in per-module mode emit one convex hull of
the flattened corner buffer (`np.array(vertices).reshape((-1, 3))`), colored
by `set_module_color`. `num_det_in_module` starts at 0 for a module with no
groups (Python would leave the name unbound there). -/
def module_instance_step (modules_only random_color : Bool) (det_eff : Option (List ℚ))
    (rng : ℕ → ℕ × ℕ × ℕ) (rep_module : ReplicatedDetectorModule)
    (shapes : List Trimesh) (mod_i : ℕ) : List Trimesh :=
  let mod_transform := rep_module.transforms.getD mod_i default
  let det_el := rep_module.object.detecting_elements
  let st := det_el.foldl
    (det_group_step modules_only random_color det_eff rng mod_i mod_transform)
    ([], 0, shapes)
  if modules_only then
    let module_mesh := convex_hull st.1.flatten
    let module_mesh := set_module_color module_mesh det_eff mod_i st.2.1 det_el
      random_color (rng st.2.2.length)
    st.2.2 ++ [module_mesh]
  else st.2.2

/-- The `__main__` geometry loop: for every replicated module and every module
instance, run the module-instance body, starting from `shapes = []`. -/
def traversal (modules_only random_color : Bool) (det_eff : Option (List ℚ))
    (rng : ℕ → ℕ × ℕ × ℕ) (header : Header) : List Trimesh :=
  header.scanner.scanner_geometry.replicated_modules.foldl
    (fun shapes rep_module =>
      (List.range rep_module.transforms.length).foldl
        (module_instance_step modules_only random_color det_eff rng rep_module) shapes)
    []

/-- The `__main__` flow relevant to geometry: extract the detector
efficiencies (which may abort with `sys.exit`) and only then run the
traversal. -/
def main_run (modules_only show_det_eff random_color : Bool) (rng : ℕ → ℕ × ℕ × ℕ)
    (header : Header) : Except String (List Trimesh) :=
  match extract_detector_eff show_det_eff header with
  | .error msg => .error msg
  | .ok detector_efficiencies =>
      .ok (traversal modules_only random_color detector_efficiencies rng header)

/-! ## Derived per-element and per-module meshes (traversal vocabulary) -/

/-- The 8 world-space corners of element instance `det_i` of a group: the
template box pushed through the fused module and instance transform. -/
def element_corners (mod_transform : RigidTransformation)
    (rep_volume : ReplicatedBoxObject) (det_i : ℕ) : List Point3 :=
  ((transform_BoxShape
      (mult_transforms [mod_transform, rep_volume.transforms.getD det_i default])
      rep_volume.object.shape).corners.map (fun boxcorner => boxcorner.c))

/-- The box mesh emitted for one element instance in per-element,
non-random mode, with `num_det_in_module = n`. -/
def element_mesh (det_eff : Option (List ℚ)) (mod_i : ℕ)
    (mod_transform : RigidTransformation) (rep_volume : ReplicatedBoxObject)
    (n det_i : ℕ) : Trimesh :=
  set_detector_color (create_box_from_vertices (element_corners mod_transform rep_volume det_i))
    det_eff mod_i n det_i false (0, 0, 0)

/-- The corner sets accumulated for module instance `mod_i` of `rm`: all
instances of all detecting-element groups, in traversal order. -/
def module_corners (rm : ReplicatedDetectorModule) (mod_i : ℕ) : List (List Point3) :=
  rm.object.detecting_elements.flatMap (fun g =>
    (List.range g.transforms.length).map
      (element_corners (rm.transforms.getD mod_i default) g))

/-- The single hull mesh emitted for module instance `mod_i` of `rm` in
non-random mode. -/
def module_hull_mesh (det_eff : Option (List ℚ)) (rm : ReplicatedDetectorModule)
    (mod_i : ℕ) : Trimesh :=
  set_module_color (convex_hull (module_corners rm mod_i).flatten) det_eff mod_i
    (rm.object.detecting_elements.foldl (fun _ g => g.transforms.length) 0)
    rm.object.detecting_elements false (0, 0, 0)

/-! ## Concrete scenario inputs -/

/-- A dummy random oracle for runs that never draw random colors. -/
def rng0 : ℕ → ℕ × ℕ × ℕ := fun _ => (0, 0, 0)

/-- The unit cube at the origin, corners in the canonical order expected by
`box_faces` (bottom four counter-clockwise, then top four). -/
def unit_cube : BoxShape :=
  ⟨[⟨(0, 0, 0)⟩, ⟨(1, 0, 0)⟩, ⟨(1, 1, 0)⟩, ⟨(0, 1, 0)⟩,
    ⟨(0, 0, 1)⟩, ⟨(1, 0, 1)⟩, ⟨(1, 1, 1)⟩, ⟨(0, 1, 1)⟩]⟩

/-- Translation by `d` along the x axis. -/
def translateX (d : ℚ) : RigidTransformation :=
  ⟨((1, 0, 0, d), (0, 1, 0, 0), (0, 0, 1, 0))⟩

/-- Translation by `d` along the y axis. -/
def translateY (d : ℚ) : RigidTransformation :=
  ⟨((1, 0, 0, 0), (0, 1, 0, d), (0, 0, 1, 0))⟩

/-- A header with no geometry and no efficiency table. -/
def empty_header : Header := ⟨⟨⟨[]⟩, ⟨none⟩⟩⟩

/-- A header with no geometry but an efficiency table present
(one element, one energy bin, efficiency 1/2). -/
def table_header : Header := ⟨⟨⟨[]⟩, ⟨some [[1 / 2]]⟩⟩⟩

/-- A header with no geometry and a two-row, ragged efficiency table. -/
def table2_header : Header := ⟨⟨⟨[]⟩, ⟨some [[2], [3, 4]]⟩⟩⟩

/-- One module instance (identity placement) with two detecting-element
groups of one instance each, and an efficiency table whose two element rows
average to 0 and 1: the scanner that separates group-local indexing from a
module-wide running element count. -/
def two_group_header : Header :=
  ⟨⟨⟨[⟨⟨[⟨⟨unit_cube⟩, [idTransform]⟩, ⟨⟨unit_cube⟩, [translateY 2]⟩]⟩,
      [idTransform]⟩]⟩,
    ⟨some [[0], [1]]⟩⟩⟩

/-- The spec's modules-only scenario: one module instance (identity
placement), one group of two unit-cube instances translated by (0,0,0) and
(1,0,0), no efficiency table. -/
def scenario_header : Header :=
  ⟨⟨⟨[⟨⟨[⟨⟨unit_cube⟩, [idTransform, translateX 1]⟩]⟩, [idTransform]⟩]⟩, ⟨none⟩⟩⟩

/-- The 16 world-space corners of the two unit cubes of `scenario_header`,
in traversal order. -/
def scenario_points : List Point3 :=
  [(0, 0, 0), (1, 0, 0), (1, 1, 0), (0, 1, 0), (0, 0, 1), (1, 0, 1), (1, 1, 1), (0, 1, 1),
   (1, 0, 0), (2, 0, 0), (2, 1, 0), (1, 1, 0), (1, 0, 1), (2, 0, 1), (2, 1, 1), (1, 1, 1)]

/-- The 8 corners of the axis-aligned 2×1×1 box `[0,2] × [0,1] × [0,1]`. -/
def box2_corners : List Point3 :=
  [(0, 0, 0), (2, 0, 0), (2, 1, 0), (0, 1, 0), (0, 0, 1), (2, 0, 1), (2, 1, 1), (0, 1, 1)]


/-! ## Transform algebra lemmas -/

theorem matmul44_id44 (a : Mat44) : matmul44 a id44 = a := by
  obtain ⟨⟨a11, a12, a13, a14⟩, ⟨a21, a22, a23, a24⟩,
    ⟨a31, a32, a33, a34⟩, ⟨a41, a42, a43, a44⟩⟩ := a
  simp only [matmul44, rowTimes, dot4, col1, col2, col3, col4, id44, Prod.mk.injEq]
  and_intros <;> ring

theorem mulVec44_id44 (v : Row4) : mulVec44 id44 v = v := by
  obtain ⟨v1, v2, v3, v4⟩ := v
  simp only [mulVec44, dot4, id44, Prod.mk.injEq]
  and_intros <;> ring

theorem mulVec44_matmul44 (a b : Mat44) (v : Row4) :
    mulVec44 (matmul44 a b) v = mulVec44 a (mulVec44 b v) := by
  obtain ⟨⟨a11, a12, a13, a14⟩, ⟨a21, a22, a23, a24⟩,
    ⟨a31, a32, a33, a34⟩, ⟨a41, a42, a43, a44⟩⟩ := a
  obtain ⟨⟨b11, b12, b13, b14⟩, ⟨b21, b22, b23, b24⟩,
    ⟨b31, b32, b33, b34⟩, ⟨b41, b42, b43, b44⟩⟩ := b
  obtain ⟨v1, v2, v3, v4⟩ := v
  simp only [matmul44, mulVec44, rowTimes, dot4, col1, col2, col3, col4, Prod.mk.injEq]
  and_intros <;> ring

/-- The bottom row of the promoted matrix of any transform is `(0,0,0,1)`. -/
theorem transform_to_mat44_bottom (t : RigidTransformation) :
    (transform_to_mat44 t).2.2.2 = (0, 0, 0, 1) := rfl

/-- Left multiplication by a matrix with bottom row `(0,0,0,1)` preserves the
bottom row of the right factor. -/
theorem matmul44_bottom (a b : Mat44) (ha : a.2.2.2 = (0, 0, 0, 1)) :
    (matmul44 a b).2.2.2 = b.2.2.2 := by
  obtain ⟨⟨a11, a12, a13, a14⟩, ⟨a21, a22, a23, a24⟩,
    ⟨a31, a32, a33, a34⟩, ⟨a41, a42, a43, a44⟩⟩ := a
  obtain ⟨⟨b11, b12, b13, b14⟩, ⟨b21, b22, b23, b24⟩,
    ⟨b31, b32, b33, b34⟩, ⟨b41, b42, b43, b44⟩⟩ := b
  simp only [Prod.mk.injEq] at ha
  obtain ⟨h1, h2, h3, h4⟩ := ha
  subst h1 h2 h3 h4
  simp only [matmul44, rowTimes, dot4, col1, col2, col3, col4, Prod.mk.injEq]
  and_intros <;> ring

/-- The homogeneous-matrix fold inside `mult_transforms` keeps bottom row
`(0,0,0,1)`. -/
theorem foldl_matmul44_bottom (l : List RigidTransformation) (mat : Mat44)
    (h : mat.2.2.2 = (0, 0, 0, 1)) :
    (l.foldl (fun mat t => matmul44 (transform_to_mat44 t) mat) mat).2.2.2
      = (0, 0, 0, 1) := by
  induction l generalizing mat with
  | nil => exact h
  | cons t ts ih =>
      exact ih _ (by rw [matmul44_bottom _ _ (transform_to_mat44_bottom t)]; exact h)

/-- Promotion after demotion is the identity on matrices whose bottom row is
`(0,0,0,1)`. -/
theorem transform_to_mat44_mat44_to_transform (m : Mat44)
    (h : m.2.2.2 = (0, 0, 0, 1)) :
    transform_to_mat44 (mat44_to_transform m) = m := by
  obtain ⟨r1, r2, r3, r4⟩ := m
  simp only at h
  subst h
  rfl

/-- The fused 4×4 matrix of a transform list, with the `mult_transforms`
round trip removed. -/
theorem transform_to_mat44_mult_transforms (transforms : List RigidTransformation) :
    transform_to_mat44 (mult_transforms transforms)
      = transforms.reverse.foldl (fun mat t => matmul44 (transform_to_mat44 t) mat) id44 := by
  exact transform_to_mat44_mat44_to_transform _ (foldl_matmul44_bottom _ _ rfl)

/-- Re-promoting a demoted homogeneous vector whose last entry is 1 is the
identity. -/
theorem coordinate_to_homogeneous_homogeneous_to_coordinate (v : Row4) (h : v.2.2.2 = 1) :
    coordinate_to_homogeneous (homogeneous_to_coordinate v) = v := by
  obtain ⟨v1, v2, v3, v4⟩ := v
  simp only at h
  subst h
  rfl

/-- A matrix with bottom row `(0,0,0,1)` maps vectors with last entry 1 to
vectors with last entry 1. -/
theorem mulVec44_last (m : Mat44) (v : Row4) (hm : m.2.2.2 = (0, 0, 0, 1))
    (hv : v.2.2.2 = 1) : (mulVec44 m v).2.2.2 = 1 := by
  obtain ⟨r1, r2, r3, r4⟩ := m
  obtain ⟨v1, v2, v3, v4⟩ := v
  simp only at hm hv
  subst hm hv
  simp only [mulVec44, dot4]
  ring

/-- Applying a single transformation is one homogeneous matrix-vector
multiply by its promoted matrix. -/
theorem mult_transforms_coord_single (t : RigidTransformation) (c : Coordinate) :
    mult_transforms_coord [t] c
      = homogeneous_to_coordinate
          (mulVec44 (transform_to_mat44 t) (coordinate_to_homogeneous c)) := by
  unfold mult_transforms_coord
  rw [transform_to_mat44_mult_transforms]
  simp only [List.reverse_cons, List.reverse_nil, List.nil_append, List.foldl_cons,
    List.foldl_nil, matmul44_id44]

/-- Applying a fused pair of transformations coordinate-wise. -/
theorem mult_transforms_coord_pair (a b : RigidTransformation) (c : Coordinate) :
    mult_transforms_coord [a, b] c
      = mult_transforms_coord [a] (mult_transforms_coord [b] c) := by
  rw [mult_transforms_coord_single, mult_transforms_coord_single]
  unfold mult_transforms_coord
  rw [transform_to_mat44_mult_transforms]
  simp only [List.reverse_cons, List.reverse_nil, List.nil_append, List.singleton_append,
    List.cons_append, List.foldl_cons, List.foldl_nil, matmul44_id44]
  rw [coordinate_to_homogeneous_homogeneous_to_coordinate _
      (mulVec44_last _ _ (transform_to_mat44_bottom b) rfl),
    mulVec44_matmul44]

/-! ## Traversal characterization lemmas -/

/-- In non-random mode the drawn random channels are never read. -/
theorem set_detector_color_nonrandom (det_mesh : Trimesh)
    (det_eff : Option (List ℚ)) (mod_i n det_i : ℕ) (rand rand' : ℕ × ℕ × ℕ) :
    set_detector_color det_mesh det_eff mod_i n det_i false rand
      = set_detector_color det_mesh det_eff mod_i n det_i false rand' := rfl

/-- One per-element loop iteration appends exactly one colored box mesh. -/
theorem det_instance_step_elem (det_eff : Option (List ℚ)) (rng : ℕ → ℕ × ℕ × ℕ)
    (mod_i : ℕ) (mt : RigidTransformation) (rv : ReplicatedBoxObject)
    (v : List (List Point3)) (n : ℕ) (s : List Trimesh) (i : ℕ) :
    det_instance_step false false det_eff rng mod_i mt rv (v, n, s) i
      = (v, n, s ++ [element_mesh det_eff mod_i mt rv n i]) := rfl

/-- The per-element instance loop appends one mesh per instance index. -/
theorem foldl_det_instance_elem (det_eff : Option (List ℚ)) (rng : ℕ → ℕ × ℕ × ℕ)
    (mod_i : ℕ) (mt : RigidTransformation) (rv : ReplicatedBoxObject)
    (l : List ℕ) :
    ∀ (v : List (List Point3)) (n : ℕ) (s : List Trimesh),
    l.foldl (det_instance_step false false det_eff rng mod_i mt rv) (v, n, s)
      = (v, n, s ++ l.map (element_mesh det_eff mod_i mt rv n)) := by
  induction l with
  | nil => intro v n s; simp
  | cons i l ih =>
      intro v n s
      rw [List.foldl_cons, det_instance_step_elem, ih]
      simp

/-- The per-element group body appends the group's meshes and records the
group's instance count in `num_det_in_module`. -/
theorem det_group_step_elem (det_eff : Option (List ℚ)) (rng : ℕ → ℕ × ℕ × ℕ)
    (mod_i : ℕ) (mt : RigidTransformation) (v : List (List Point3)) (n : ℕ)
    (s : List Trimesh) (rv : ReplicatedBoxObject) :
    det_group_step false false det_eff rng mod_i mt (v, n, s) rv
      = (v, rv.transforms.length,
          s ++ (List.range rv.transforms.length).map
            (element_mesh det_eff mod_i mt rv rv.transforms.length)) := by
  unfold det_group_step
  exact foldl_det_instance_elem _ _ _ _ _ _ _ _ _

/-- The per-element group loop appends, group by group, one mesh per
instance, the efficiency lookup of each group using that group's own
instance count and group-local index. -/
theorem foldl_det_group_elem (det_eff : Option (List ℚ)) (rng : ℕ → ℕ × ℕ × ℕ)
    (mod_i : ℕ) (mt : RigidTransformation) (groups : List ReplicatedBoxObject) :
    ∀ (v : List (List Point3)) (n : ℕ) (s : List Trimesh),
    groups.foldl (det_group_step false false det_eff rng mod_i mt) (v, n, s)
      = (v, groups.foldl (fun _ g => g.transforms.length) n,
          s ++ groups.flatMap (fun g =>
            (List.range g.transforms.length).map
              (element_mesh det_eff mod_i mt g g.transforms.length))) := by
  induction groups with
  | nil => intro v n s; simp
  | cons g gs ih =>
      intro v n s
      rw [List.foldl_cons, det_group_step_elem, ih]
      simp

/-- Flat-mapping singletons is mapping. -/
theorem flatMap_singleton_eq_map {α β : Type} (f : α → β) (l : List α) :
    l.flatMap (fun i => [f i]) = l.map f := by
  induction l with
  | nil => simp
  | cons x xs ih => simp [ih]

/-- Fold of a pure append step over a list. -/
theorem foldl_append_step {α β : Type} (step : List α → β → List α) (F : β → List α)
    (h : ∀ s i, step s i = s ++ F i) :
    ∀ (l : List β) (s : List α), l.foldl step s = s ++ l.flatMap F := by
  intro l
  induction l with
  | nil => intro s; simp
  | cons i l ih =>
      intro s
      rw [List.foldl_cons, h, ih]
      simp

/-- One module-instance body in per-element, non-random mode: appends the
meshes of all groups of this module instance. -/
theorem module_instance_step_elem (det_eff : Option (List ℚ)) (rng : ℕ → ℕ × ℕ × ℕ)
    (rm : ReplicatedDetectorModule) (shapes : List Trimesh) (mod_i : ℕ) :
    module_instance_step false false det_eff rng rm shapes mod_i
      = shapes ++ rm.object.detecting_elements.flatMap (fun g =>
          (List.range g.transforms.length).map
            (element_mesh det_eff mod_i (rm.transforms.getD mod_i default) g
              g.transforms.length)) := by
  simp only [module_instance_step]
  rw [foldl_det_group_elem]
  simp

/-- Per-element, non-random traversal: one colored box mesh per element
instance, enumerated module-type by module-type, module-instance by
module-instance, group by group, instance by instance. -/
theorem traversal_elem (det_eff : Option (List ℚ)) (rng : ℕ → ℕ × ℕ × ℕ)
    (header : Header) :
    traversal false false det_eff rng header
      = header.scanner.scanner_geometry.replicated_modules.flatMap (fun rm =>
          (List.range rm.transforms.length).flatMap (fun mod_i =>
            rm.object.detecting_elements.flatMap (fun g =>
              (List.range g.transforms.length).map
                (element_mesh det_eff mod_i (rm.transforms.getD mod_i default) g
                  g.transforms.length)))) := by
  unfold traversal
  rw [foldl_append_step
      (fun shapes rm =>
        (List.range rm.transforms.length).foldl
          (module_instance_step false false det_eff rng rm) shapes)
      (fun rm =>
        (List.range rm.transforms.length).flatMap (fun mod_i =>
          rm.object.detecting_elements.flatMap (fun g =>
            (List.range g.transforms.length).map
              (element_mesh det_eff mod_i (rm.transforms.getD mod_i default) g
                g.transforms.length))))
      (fun s rm => foldl_append_step _ _ (module_instance_step_elem det_eff rng rm) _ s)]
  simp

/-! ## Modules-only characterization lemmas -/

/-- One modules-only loop iteration appends the instance's corners to the
per-module buffer and emits nothing. -/
theorem det_instance_step_mod (rc : Bool) (det_eff : Option (List ℚ))
    (rng : ℕ → ℕ × ℕ × ℕ) (mod_i : ℕ) (mt : RigidTransformation)
    (rv : ReplicatedBoxObject) (v : List (List Point3)) (n : ℕ) (s : List Trimesh)
    (i : ℕ) :
    det_instance_step true rc det_eff rng mod_i mt rv (v, n, s) i
      = (v ++ [element_corners mt rv i], n, s) := rfl

/-- The modules-only instance loop accumulates one corner set per instance. -/
theorem foldl_det_instance_mod (rc : Bool) (det_eff : Option (List ℚ))
    (rng : ℕ → ℕ × ℕ × ℕ) (mod_i : ℕ) (mt : RigidTransformation)
    (rv : ReplicatedBoxObject) (l : List ℕ) :
    ∀ (v : List (List Point3)) (n : ℕ) (s : List Trimesh),
    l.foldl (det_instance_step true rc det_eff rng mod_i mt rv) (v, n, s)
      = (v ++ l.map (element_corners mt rv), n, s) := by
  induction l with
  | nil => intro v n s; simp
  | cons i l ih =>
      intro v n s
      rw [List.foldl_cons, det_instance_step_mod, ih]
      simp

/-- The modules-only group body accumulates the group's corner sets. -/
theorem det_group_step_mod (rc : Bool) (det_eff : Option (List ℚ))
    (rng : ℕ → ℕ × ℕ × ℕ) (mod_i : ℕ) (mt : RigidTransformation)
    (v : List (List Point3)) (n : ℕ) (s : List Trimesh) (rv : ReplicatedBoxObject) :
    det_group_step true rc det_eff rng mod_i mt (v, n, s) rv
      = (v ++ (List.range rv.transforms.length).map (element_corners mt rv),
          rv.transforms.length, s) := by
  unfold det_group_step
  exact foldl_det_instance_mod _ _ _ _ _ _ _ _ _ _

/-- The modules-only group loop accumulates all corners of all groups and
emits nothing. -/
theorem foldl_det_group_mod (rc : Bool) (det_eff : Option (List ℚ))
    (rng : ℕ → ℕ × ℕ × ℕ) (mod_i : ℕ) (mt : RigidTransformation)
    (groups : List ReplicatedBoxObject) :
    ∀ (v : List (List Point3)) (n : ℕ) (s : List Trimesh),
    groups.foldl (det_group_step true rc det_eff rng mod_i mt) (v, n, s)
      = (v ++ groups.flatMap (fun g =>
            (List.range g.transforms.length).map (element_corners mt g)),
          groups.foldl (fun _ g => g.transforms.length) n, s) := by
  induction groups with
  | nil => intro v n s; simp
  | cons g gs ih =>
      intro v n s
      rw [List.foldl_cons, det_group_step_mod, ih]
      simp

/-- In non-random mode `set_module_color` never reads the random channels. -/
theorem set_module_color_nonrandom (mesh : Trimesh) (det_eff : Option (List ℚ))
    (mod_i n : ℕ) (det_el : List ReplicatedBoxObject) (rand rand' : ℕ × ℕ × ℕ) :
    set_module_color mesh det_eff mod_i n det_el false rand
      = set_module_color mesh det_eff mod_i n det_el false rand' := rfl

/-- One module-instance body in modules-only, non-random mode: exactly one
convex-hull mesh, synthesized from the corners of all the module's groups
and instances after they have all been processed. -/
theorem module_instance_step_mod (det_eff : Option (List ℚ)) (rng : ℕ → ℕ × ℕ × ℕ)
    (rm : ReplicatedDetectorModule) (shapes : List Trimesh) (mod_i : ℕ) :
    module_instance_step true false det_eff rng rm shapes mod_i
      = shapes ++ [module_hull_mesh det_eff rm mod_i] := by
  simp only [module_instance_step]
  rw [foldl_det_group_mod]
  simp only [module_hull_mesh, module_corners]
  rfl

/-- Modules-only, non-random traversal: exactly one hull mesh per module
instance. -/
theorem traversal_mod (det_eff : Option (List ℚ)) (rng : ℕ → ℕ × ℕ × ℕ)
    (header : Header) :
    traversal true false det_eff rng header
      = header.scanner.scanner_geometry.replicated_modules.flatMap (fun rm =>
          (List.range rm.transforms.length).map (module_hull_mesh det_eff rm)) := by
  unfold traversal
  rw [foldl_append_step
      (fun shapes rm =>
        (List.range rm.transforms.length).foldl
          (module_instance_step true false det_eff rng rm) shapes)
      (fun rm => (List.range rm.transforms.length).map (module_hull_mesh det_eff rm))
      (fun s rm =>
        (foldl_append_step _ (fun mod_i => [module_hull_mesh det_eff rm mod_i])
          (module_instance_step_mod det_eff rng rm) (List.range rm.transforms.length)
          s).trans (by rw [flatMap_singleton_eq_map]))]
  simp

/-! ## Arithmetic helper lemmas -/

/-- Reading back the color just assigned to a mesh. -/
theorem Trimesh.face_colors_set (m : Trimesh) (c : Color) :
    (m.set_face_colors c).face_colors = some c := by
  cases m <;> rfl

/-- The narrowing cast is the identity on natural channel values below 256. -/
theorem to_uint8_natCast_lt (r : ℕ) (h : r < 256) : to_uint8 (r : ℚ) = r := by
  simp only [to_uint8, ratTrunc, Rat.num_natCast, Rat.den_natCast, Nat.cast_one,
    Int.tdiv_one]
  omega

/-- On nonnegative values the narrowing cast is truncation followed by
reduction modulo 2^8 — wrap-around, not clamping. -/
theorem to_uint8_nonneg_wrap (x : ℚ) (h : 0 ≤ x) :
    to_uint8 x = (ratTrunc x).toNat % 256 := by
  have h1 : 0 ≤ ratTrunc x := Int.tdiv_nonneg (Rat.num_nonneg.mpr h) (by positivity)
  simp only [to_uint8]
  omega

/-- The red crystal channel survives the narrowing cast unchanged. -/
theorem to_uint8_255 : to_uint8 255 = 255 := by
  norm_num [to_uint8, ratTrunc]; decide

/-- The green/blue crystal channel survives the narrowing cast unchanged. -/
theorem to_uint8_40 : to_uint8 40 = 40 := by
  norm_num [to_uint8, ratTrunc]; decide

/-- Summing a list of ones gives the length. -/
theorem sum_map_ones (row : List ℚ) : (row.map (fun _ => (1 : ℚ))).sum = row.length := by
  induction row with
  | nil => simp
  | cons x xs ih => simp [ih]; ring

/-- The energy-wise mean of a nonempty all-ones row is 1. -/
theorem np_mean_ones (row : List ℚ) (h : row ≠ []) :
    np_mean (row.map (fun _ => (1 : ℚ))) = 1 := by
  have hl : 0 < row.length := List.length_pos.mpr h
  simp [np_mean, sum_map_ones]
  rw [div_self]
  positivity

/-- Unfolding the per-element mesh when an efficiency table is present. -/
theorem element_mesh_some (eff : List ℚ) (mod_i : ℕ) (mt : RigidTransformation)
    (rv : ReplicatedBoxObject) (n det_i : ℕ) :
    element_mesh (some eff) mod_i mt rv n det_i
      = Trimesh.mk (element_corners mt rv det_i) box_faces
          (some ⟨to_uint8 (crystal_color.1 * eff.getD (mod_i * n + det_i) 0),
                 to_uint8 (crystal_color.2.1 * eff.getD (mod_i * n + det_i) 0),
                 to_uint8 (crystal_color.2.2 * eff.getD (mod_i * n + det_i) 0),
                 50⟩) := rfl

/-! ## Claim theorems -/

/-- C10: for every rigid transform `t`, demoting its promoted 4×4 homogeneous
matrix yields `t` back exactly — promotion appends the bottom row
`(0,0,0,1)` and demotion drops exactly that row, so the round trip is
lossless for every 3×4 transform. -/
theorem transform_roundtrip_lossless :
    ∀ t : RigidTransformation,
      mat44_to_transform (transform_to_mat44 t) = t
      ∧ (transform_to_mat44 t).2.2.2 = (0, 0, 0, 1)
      ∧ ((transform_to_mat44 t).1, (transform_to_mat44 t).2.1,
          (transform_to_mat44 t).2.2.1) = t.matrix := by
  intro t
  obtain ⟨⟨r1, r2, r3⟩⟩ := t
  exact ⟨rfl, rfl, rfl⟩

/-- C4: applying `mult_transforms [A, B, C]` to a point equals applying `C`,
then `B`, then `A` (last list element applied first); the fused homogeneous
matrix is the product of the promoted matrices in reverse application
order; and `mult_transforms []` is the identity transform, whose
application fixes every point. -/
theorem mult_transforms_reverse_composition :
    (∀ (A B C : RigidTransformation) (p : Coordinate),
      mult_transforms_coord [mult_transforms [A, B, C]] p
        = mult_transforms_coord [A]
            (mult_transforms_coord [B] (mult_transforms_coord [C] p)))
    ∧ (∀ A B C : RigidTransformation,
      transform_to_mat44 (mult_transforms [A, B, C])
        = matmul44 (transform_to_mat44 A)
            (matmul44 (transform_to_mat44 B) (transform_to_mat44 C)))
    ∧ mult_transforms [] = idTransform
    ∧ (∀ p : Coordinate, mult_transforms_coord [] p = p) := by
  have hfuse : ∀ A B C : RigidTransformation,
      transform_to_mat44 (mult_transforms [A, B, C])
        = matmul44 (transform_to_mat44 A)
            (matmul44 (transform_to_mat44 B) (transform_to_mat44 C)) := by
    intro A B C
    rw [transform_to_mat44_mult_transforms]
    simp only [List.reverse_cons, List.reverse_nil, List.nil_append,
      List.singleton_append, List.cons_append, List.foldl_cons, List.foldl_nil,
      matmul44_id44]
  refine ⟨?_, hfuse, rfl, ?_⟩
  · intro A B C p
    simp only [mult_transforms_coord_single]
    rw [hfuse, mulVec44_matmul44, mulVec44_matmul44,
      coordinate_to_homogeneous_homogeneous_to_coordinate _
        (mulVec44_last _ _ (transform_to_mat44_bottom C) rfl),
      coordinate_to_homogeneous_homogeneous_to_coordinate _
        (mulVec44_last _ _ (transform_to_mat44_bottom B)
          (mulVec44_last _ _ (transform_to_mat44_bottom C) rfl))]
  · intro p
    obtain ⟨⟨x, y, z⟩⟩ := p
    show homogeneous_to_coordinate
      (mulVec44 (transform_to_mat44 (mult_transforms []))
        (coordinate_to_homogeneous ⟨(x, y, z)⟩)) = _
    rw [show transform_to_mat44 (mult_transforms []) = id44 from rfl, mulVec44_id44]
    rfl

/-- C5: for every list of 8 corner points, whatever their coordinates,
`create_box_from_vertices` produces a mesh with exactly those 8 vertices and
exactly the 12 triangular faces of the fixed corner-to-face index table. -/
theorem create_box_from_vertices_shape :
    ∀ vertices : List Point3, vertices.length = 8 →
      (create_box_from_vertices vertices).vertices = vertices
      ∧ (create_box_from_vertices vertices).vertices.length = 8
      ∧ (create_box_from_vertices vertices).faces = box_faces
      ∧ (create_box_from_vertices vertices).faces.length = 12
      ∧ (∀ f ∈ (create_box_from_vertices vertices).faces, f.length = 3) := by
  intro vs h
  refine ⟨rfl, h, rfl, rfl, ?_⟩
  intro f hf
  fin_cases hf <;> rfl

/-- Witness for C5 at the unit cube's corners. -/
theorem create_box_from_vertices_shape_witness :
    (([(0, 0, 0), (1, 0, 0), (1, 1, 0), (0, 1, 0),
       (0, 0, 1), (1, 0, 1), (1, 1, 1), (0, 1, 1)] : List Point3).length = 8)
    ∧ (create_box_from_vertices
        [(0, 0, 0), (1, 0, 0), (1, 1, 0), (0, 1, 0),
         (0, 0, 1), (1, 0, 1), (1, 1, 1), (0, 1, 1)]).faces.length = 12 :=
  ⟨rfl, (create_box_from_vertices_shape
      [(0, 0, 0), (1, 0, 0), (1, 1, 0), (0, 1, 0),
       (0, 0, 1), (1, 0, 1), (1, 1, 1), (0, 1, 1)] rfl).2.2.2.1⟩

/-- C1: with the use-real-efficiency flag set and no detection-efficiency
table in the header, the run aborts with the fatal configuration message
(naming the missing scanner detection efficiencies) before the traversal
synthesizes any solid, and this outcome differs from a successful run that
produced no solids. -/
theorem main_run_missing_table_aborts :
    ∀ (header : Header) (modules_only random_color : Bool) (rng : ℕ → ℕ × ℕ × ℕ),
      header.scanner.detection_efficiencies.det_el_efficiencies = none →
      main_run modules_only true random_color rng header
        = Except.error missing_eff_message
      ∧ (Except.error missing_eff_message ≠ (Except.ok [] : Except String (List Trimesh))) := by
  intro header mo rc rng h
  have he : extract_detector_eff true header = Except.error missing_eff_message := by
    unfold extract_detector_eff
    rw [h]
    rfl
  constructor
  · unfold main_run
    rw [he]
  · simp

/-- Witness for C1: the empty header with no efficiency table. -/
theorem main_run_missing_table_aborts_witness :
    (empty_header.scanner.detection_efficiencies.det_el_efficiencies
        = (none : Option (List (List ℚ))))
    ∧ main_run false true false rng0 empty_header = Except.error missing_eff_message :=
  ⟨rfl, (main_run_missing_table_aborts empty_header false false rng0 rfl).1⟩

/-- C2 counterexample: with the flag false but a table present (one element,
one energy bin, value 1/2), the extractor does NOT return the `none`
sentinel — it returns a table of ones. -/
theorem extract_with_table_not_sentinel :
    extract_detector_eff false table_header = Except.ok (some [1])
    ∧ Except.ok (some [(1 : ℚ)]) ≠ (Except.ok none : Except String (Option (List ℚ))) := by
  constructor
  · simp [extract_detector_eff, table_header, np_mean]
  · simp

/-- C2 (amended): with the flag false the extractor returns the `none`
sentinel only when the table is absent; when a table is present it instead
returns one 1.0 per element row (the energy-wise mean of a same-shaped
all-ones array). -/
theorem extract_detector_eff_flag_false_behavior :
    (∀ (header : Header) (table : List (List ℚ)),
      header.scanner.detection_efficiencies.det_el_efficiencies = some table →
      (∀ row ∈ table, row ≠ []) →
      extract_detector_eff false header
        = Except.ok (some (table.map (fun _ => (1 : ℚ)))))
    ∧ (∀ header : Header,
      header.scanner.detection_efficiencies.det_el_efficiencies = none →
      extract_detector_eff false header = Except.ok none) := by
  constructor
  · intro header table h hrows
    unfold extract_detector_eff
    rw [h]
    simp only [Bool.false_eq_true, if_false, List.map_map, Except.ok.injEq,
      Option.some.injEq]
    refine List.map_congr_left ?_
    intro row hrow
    exact np_mean_ones row (hrows row hrow)
  · intro header h
    unfold extract_detector_eff
    rw [h]
    rfl

/-- Witness for C2's amended claim: a present two-row table maps to `[1, 1]`,
and a missing table maps to the sentinel. -/
theorem extract_detector_eff_flag_false_behavior_witness :
    extract_detector_eff false table2_header = Except.ok (some [1, 1])
    ∧ extract_detector_eff false empty_header = Except.ok none := by
  constructor
  · have h := extract_detector_eff_flag_false_behavior.1 table2_header [[2], [3, 4]]
      rfl (by intro row hrow; fin_cases hrow <;> simp)
    simpa using h
  · exact extract_detector_eff_flag_false_behavior.2 empty_header rfl

/-- C7: when efficiency coloring is active and the looked-up efficiency of
the instance is exactly 1, the assigned color equals the default
(no-weighting) color exactly: crystal RGB (255, 40, 40) with alpha 50. -/
theorem unit_efficiency_color_is_default :
    ∀ (mesh : Trimesh) (eff : List ℚ) (mod_i n det_i : ℕ) (rand rand' : ℕ × ℕ × ℕ),
      eff.getD (mod_i * n + det_i) 0 = 1 →
      set_detector_color mesh (some eff) mod_i n det_i false rand
        = set_detector_color mesh none mod_i n det_i false rand'
      ∧ (set_detector_color mesh (some eff) mod_i n det_i false rand).face_colors
          = some ⟨255, 40, 40, 50⟩ := by
  intro mesh eff mod_i n det_i rand rand' h
  rw [List.getD_eq_getElem?_getD] at h
  constructor
  · simp [set_detector_color, h]
  · simp [set_detector_color, h, Trimesh.face_colors_set, crystal_color,
      to_uint8_255, to_uint8_40]

/-- Witness for C7 at a one-element efficiency table with value 1. -/
theorem unit_efficiency_color_is_default_witness :
    ([(1 : ℚ)].getD (0 * 0 + 0) 0 = 1)
    ∧ (set_detector_color (convex_hull []) (some [(1 : ℚ)]) 0 0 0 false
        (0, 0, 0)).face_colors = some ⟨255, 40, 40, 50⟩ :=
  ⟨rfl, (unit_efficiency_color_is_default (convex_hull []) [(1 : ℚ)] 0 0 0
      (0, 0, 0) (0, 0, 0) rfl).2⟩

/-- C9: an efficiency value pushing a crystal channel past 255 is not clamped
and raises no error: the stored 8-bit channel is the truncated product
reduced modulo 2^8 (wrap-around). -/
theorem efficiency_overflow_wraps :
    ∀ (mesh : Trimesh) (eff : List ℚ) (mod_i n det_i : ℕ) (rand : ℕ × ℕ × ℕ),
      255 < crystal_color.1 * eff.getD (mod_i * n + det_i) 0 →
      (set_detector_color mesh (some eff) mod_i n det_i false rand).face_colors
        = some ⟨(ratTrunc (crystal_color.1 * eff.getD (mod_i * n + det_i) 0)).toNat % 256,
                to_uint8 (crystal_color.2.1 * eff.getD (mod_i * n + det_i) 0),
                to_uint8 (crystal_color.2.2 * eff.getD (mod_i * n + det_i) 0), 50⟩ := by
  intro mesh eff mod_i n det_i rand h
  have h0 : (0 : ℚ) ≤ crystal_color.1 * eff.getD (mod_i * n + det_i) 0 :=
    le_trans (by norm_num) h.le
  rw [← to_uint8_nonneg_wrap _ h0]
  simp [set_detector_color, Trimesh.face_colors_set]

/-- Witness for C9: efficiency 2 drives the red channel to 510, stored as
510 mod 256 = 254 — wrapped, not saturated to 255, and no error raised. -/
theorem efficiency_overflow_wraps_witness :
    (255 < crystal_color.1 * ([(2 : ℚ)].getD (0 * 1 + 0) 0))
    ∧ (set_detector_color (convex_hull []) (some [(2 : ℚ)]) 0 1 0 false
        (0, 0, 0)).face_colors = some ⟨254, 80, 80, 50⟩
    ∧ (254 : ℕ) ≠ 255 := by
  have h : (255 : ℚ) < crystal_color.1 * ([(2 : ℚ)].getD (0 * 1 + 0) 0) := by
    norm_num [crystal_color]
  refine ⟨h, ?_, by decide⟩
  rw [efficiency_overflow_wraps (convex_hull []) [(2 : ℚ)] 0 1 0 (0, 0, 0) h]
  norm_num [crystal_color, ratTrunc, to_uint8]
  decide

/-- C8 counterexample: the sampler `np.random.randint(0, 255)` used by the
random-color mode has an exclusive upper bound — 254 is drawable but 255,
which the claim's inclusive range [0, 255] contains, is not. -/
theorem np_randint_upper_bound_exclusive :
    np_randint_support 0 255 254 ∧ ¬ np_randint_support 0 255 255 := by decide

/-- C8 (amended): in random-color mode the three channels are the values
drawn by `np.random.randint(0, 255, size=3)` — integers in [0, 254], the
upper bound 255 being exclusive — stored unchanged with alpha fixed at 50,
and the resulting mesh never depends on the efficiency table; likewise for
module coloring. -/
theorem random_color_mode_behavior :
    ∀ (mesh : Trimesh) (det_eff det_eff' : Option (List ℚ)) (mod_i n det_i : ℕ)
      (det_el : List ReplicatedBoxObject) (rand : ℕ × ℕ × ℕ),
      np_randint_support 0 255 rand.1 →
      np_randint_support 0 255 rand.2.1 →
      np_randint_support 0 255 rand.2.2 →
      (set_detector_color mesh det_eff mod_i n det_i true rand).face_colors
        = some ⟨rand.1, rand.2.1, rand.2.2, 50⟩
      ∧ set_detector_color mesh det_eff mod_i n det_i true rand
          = set_detector_color mesh det_eff' mod_i n det_i true rand
      ∧ (set_module_color mesh det_eff mod_i n det_el true rand).face_colors
          = some ⟨rand.1, rand.2.1, rand.2.2, 50⟩
      ∧ set_module_color mesh det_eff mod_i n det_el true rand
          = set_module_color mesh det_eff' mod_i n det_el true rand := by
  intro mesh det_eff det_eff' mod_i n det_i det_el rand h1 h2 h3
  refine ⟨?_, rfl, ?_, rfl⟩
  · simp [set_detector_color, Trimesh.face_colors_set,
      to_uint8_natCast_lt rand.1 (by omega), to_uint8_natCast_lt rand.2.1 (by omega),
      to_uint8_natCast_lt rand.2.2 (by omega)]
  · simp [set_module_color, Trimesh.face_colors_set,
      to_uint8_natCast_lt rand.1 (by omega), to_uint8_natCast_lt rand.2.1 (by omega),
      to_uint8_natCast_lt rand.2.2 (by omega)]

/-- Witness for C8's amended claim at the draw (12, 34, 56), with and
without an efficiency table. -/
theorem random_color_mode_behavior_witness :
    np_randint_support 0 255 12 ∧ np_randint_support 0 255 34
    ∧ np_randint_support 0 255 56
    ∧ (set_detector_color (convex_hull []) (some [(5 : ℚ)]) 1 2 3 true
        (12, 34, 56)).face_colors = some ⟨12, 34, 56, 50⟩
    ∧ set_detector_color (convex_hull []) (some [(5 : ℚ)]) 1 2 3 true (12, 34, 56)
        = set_detector_color (convex_hull []) none 1 2 3 true (12, 34, 56) :=
  ⟨by decide, by decide, by decide,
    (random_color_mode_behavior (convex_hull []) (some [(5 : ℚ)]) none 1 2 3 []
      (12, 34, 56) (by decide) (by decide) (by decide)).1,
    (random_color_mode_behavior (convex_hull []) (some [(5 : ℚ)]) none 1 2 3 []
      (12, 34, 56) (by decide) (by decide) (by decide)).2.1⟩

/-- C3 (amended): in per-element efficiency-coloring mode, the scalar that
colors the solid of instance `det_i` of a detecting-element group is
`efficiency[mod_i * n_g + det_i]`, where `n_g` is the CURRENT group's
instance count and `det_i` is local to that group (restarting at 0 for
every group; no running count accumulates across groups); the color is
`crystal_color * efficiency[k]` per channel with alpha fixed at 50. -/
theorem per_element_efficiency_uses_group_local_index :
    ∀ (eff : List ℚ) (rng : ℕ → ℕ × ℕ × ℕ) (header : Header),
      traversal false false (some eff) rng header
        = header.scanner.scanner_geometry.replicated_modules.flatMap (fun rm =>
            (List.range rm.transforms.length).flatMap (fun mod_i =>
              rm.object.detecting_elements.flatMap (fun g =>
                (List.range g.transforms.length).map (fun det_i =>
                  Trimesh.mk
                    (element_corners (rm.transforms.getD mod_i default) g det_i)
                    box_faces
                    (some ⟨to_uint8 (crystal_color.1 *
                              eff.getD (mod_i * g.transforms.length + det_i) 0),
                           to_uint8 (crystal_color.2.1 *
                              eff.getD (mod_i * g.transforms.length + det_i) 0),
                           to_uint8 (crystal_color.2.2 *
                              eff.getD (mod_i * g.transforms.length + det_i) 0),
                           50⟩))))) := by
  intro eff rng header
  rw [traversal_elem]
  rfl

/-- C3 counterexample: in `two_group_header` (one module instance, two
one-instance groups, element efficiencies 0 and 1), the second group's solid
is colored with the group-local lookup `efficiency[0 * 1 + 0] = 0`, giving
black (0,0,0,50) — not with the module-wide running count
`efficiency[0 * 2 + 1] = 1`, which would give the full crystal color. -/
theorem group_local_index_counterexample :
    (main_run false true false rng0 two_group_header).map
        (fun shapes => shapes.map Trimesh.face_colors)
      = Except.ok [some ⟨0, 0, 0, 50⟩, some ⟨0, 0, 0, 50⟩]
    ∧ (some (Color.mk 0 0 0 50)
        ≠ some ⟨to_uint8 (crystal_color.1 * ([(0 : ℚ), 1].getD (0 * 2 + 1) 0)),
                to_uint8 (crystal_color.2.1 * ([(0 : ℚ), 1].getD (0 * 2 + 1) 0)),
                to_uint8 (crystal_color.2.2 * ([(0 : ℚ), 1].getD (0 * 2 + 1) 0)),
                50⟩) := by
  constructor
  · have he : extract_detector_eff true two_group_header = Except.ok (some [0, 1]) := by
      norm_num [extract_detector_eff, two_group_header, np_mean]
    have hm : main_run false true false rng0 two_group_header
        = Except.ok (traversal false false (some [0, 1]) rng0 two_group_header) := by
      unfold main_run
      rw [he]
    rw [hm, traversal_elem]
    have hr : List.range 1 = [0] := rfl
    norm_num [two_group_header, hr, element_mesh_some, Trimesh.face_colors,
      Except.map, crystal_color, to_uint8, ratTrunc]
  · norm_num [crystal_color, to_uint8, ratTrunc]
    decide

/-- A point written as the average of two members of a set lies in the set's
convex hull. -/
theorem midpoint_mem_convexHull {s : Set Point3} {a b c : Point3}
    (ha : a ∈ s) (hb : b ∈ s)
    (hc : c = (1 / 2 : ℚ) • a + (1 / 2 : ℚ) • b) : c ∈ convexHull ℚ s := by
  rw [hc]
  exact (convex_convexHull ℚ s) (subset_convexHull ℚ s ha) (subset_convexHull ℚ s hb)
    (by norm_num) (by norm_num) (by norm_num)

/-- The convex hull of the 16 scenario corners is the 2×1×1 box
`[0,2] × [0,1] × [0,1]`: it equals the hull of that box's 8 corners. -/
theorem scenario_hull_is_2x1x1_box :
    convexHull ℚ {p : Point3 | p ∈ scenario_points}
      = convexHull ℚ {p : Point3 | p ∈ box2_corners} := by
  apply Set.Subset.antisymm
  · refine convexHull_min ?_ (convex_convexHull ℚ _)
    intro p hp
    simp only [Set.mem_setOf_eq, scenario_points, List.mem_cons,
      List.not_mem_nil, or_false] at hp
    rcases hp with rfl|rfl|rfl|rfl|rfl|rfl|rfl|rfl|rfl|rfl|rfl|rfl|rfl|rfl|rfl|rfl
    case _ => exact subset_convexHull ℚ _ (by decide)
    case _ =>
      exact @midpoint_mem_convexHull _ (0, 0, 0) (2, 0, 0) _ (by decide) (by decide)
        (by norm_num [Prod.ext_iff, smul_eq_mul])
    case _ =>
      exact @midpoint_mem_convexHull _ (0, 1, 0) (2, 1, 0) _ (by decide) (by decide)
        (by norm_num [Prod.ext_iff, smul_eq_mul])
    case _ => exact subset_convexHull ℚ _ (by decide)
    case _ => exact subset_convexHull ℚ _ (by decide)
    case _ =>
      exact @midpoint_mem_convexHull _ (0, 0, 1) (2, 0, 1) _ (by decide) (by decide)
        (by norm_num [Prod.ext_iff, smul_eq_mul])
    case _ =>
      exact @midpoint_mem_convexHull _ (0, 1, 1) (2, 1, 1) _ (by decide) (by decide)
        (by norm_num [Prod.ext_iff, smul_eq_mul])
    case _ => exact subset_convexHull ℚ _ (by decide)
    case _ =>
      exact @midpoint_mem_convexHull _ (0, 0, 0) (2, 0, 0) _ (by decide) (by decide)
        (by norm_num [Prod.ext_iff, smul_eq_mul])
    case _ => exact subset_convexHull ℚ _ (by decide)
    case _ => exact subset_convexHull ℚ _ (by decide)
    case _ =>
      exact @midpoint_mem_convexHull _ (0, 1, 0) (2, 1, 0) _ (by decide) (by decide)
        (by norm_num [Prod.ext_iff, smul_eq_mul])
    case _ =>
      exact @midpoint_mem_convexHull _ (0, 0, 1) (2, 0, 1) _ (by decide) (by decide)
        (by norm_num [Prod.ext_iff, smul_eq_mul])
    case _ => exact subset_convexHull ℚ _ (by decide)
    case _ => exact subset_convexHull ℚ _ (by decide)
    case _ =>
      exact @midpoint_mem_convexHull _ (0, 1, 1) (2, 1, 1) _ (by decide) (by decide)
        (by norm_num [Prod.ext_iff, smul_eq_mul])
  · apply convexHull_mono
    intro p hp
    simp only [Set.mem_setOf_eq, box2_corners, List.mem_cons,
      List.not_mem_nil, or_false] at hp
    simp only [Set.mem_setOf_eq]
    rcases hp with rfl|rfl|rfl|rfl|rfl|rfl|rfl|rfl <;> decide

/-- C6: in per-module mode exactly one convex-hull solid is emitted per
module instance, built from the corners accumulated over all of that
module's groups and instances (only after they have all been processed); on
the scenario scanner (1 module instance, one group of 2 unit cubes
translated by (0,0,0) and (1,0,0)) the run emits exactly 1 solid, the
convex hull of the 16 combined corners, and that hull is the 2×1×1 box. -/
theorem modules_only_one_hull_per_instance :
    (∀ (det_eff : Option (List ℚ)) (rng : ℕ → ℕ × ℕ × ℕ) (header : Header),
      traversal true false det_eff rng header
        = header.scanner.scanner_geometry.replicated_modules.flatMap (fun rm =>
            (List.range rm.transforms.length).map (module_hull_mesh det_eff rm)))
    ∧ (∀ (det_eff : Option (List ℚ)) (rng : ℕ → ℕ × ℕ × ℕ) (header : Header),
      (traversal true false det_eff rng header).length
        = (header.scanner.scanner_geometry.replicated_modules.map
            (fun rm => rm.transforms.length)).sum)
    ∧ traversal true false none rng0 scenario_header
        = [Trimesh.hull scenario_points (some ⟨255, 40, 40, 50⟩)]
    ∧ convexHull ℚ {p : Point3 | p ∈ scenario_points}
        = convexHull ℚ {p : Point3 | p ∈ box2_corners} := by
  refine ⟨fun det_eff rng header => traversal_mod det_eff rng header, ?_, ?_,
    scenario_hull_is_2x1x1_box⟩
  · intro det_eff rng header
    rw [traversal_mod, List.length_flatMap]
    congr 1
    refine List.map_congr_left ?_
    intro rm _
    simp [Function.comp]
  · rw [traversal_mod]
    have hr1 : List.range 1 = [0] := rfl
    have hr2 : List.range 2 = [0, 1] := rfl
    norm_num [scenario_header, hr1, hr2, module_hull_mesh, module_corners,
      set_module_color, convex_hull, Trimesh.set_face_colors, crystal_color,
      to_uint8_255, to_uint8_40, element_corners, transform_BoxShape,
      mult_transforms_coord, mult_transforms, transform_to_mat44,
      mat44_to_transform, matmul44, rowTimes, dot4, col1, col2, col3, col4,
      mulVec44, id44, idTransform, translateX, unit_cube,
      coordinate_to_homogeneous, homogeneous_to_coordinate, scenario_points]
